import Mathlib

/-!
Shallow embedding of the repository script auto_edit_my_reels.py: a batch
pipeline that trims clip edges, applies a small random speed change,
overlays a text watermark badge, re-encodes the result and mutates the
sidecar caption file.  Time values and random draws are modelled over ℚ;
the Python idiom int(x * c) applied to a nonnegative machine integer is
modelled by floor division on ℕ (the float factors 0.05, 0.5, 0.3, 0.08
and 0.035 are modelled by the exact fractions 5/100, 1/2, 3/10, 8/100 and
35/1000); fallible external calls (PIL, moviepy, the filesystem) are
modelled by Except / Option valued environments, and random.uniform and
random.choice by explicit sample parameters.
-/

namespace AutoEditReels

/-- Configuration constant INPUT_DIR (line 12 of the script). -/
def INPUT_DIR : String := "reels_downloads"

/-- Configuration constant OUTPUT_DIR (line 13). -/
def OUTPUT_DIR : String := "output_reels"

/-- Configuration constant WATERMARK_TEXT (line 14). -/
def WATERMARK_TEXT : String := "@my_page"

/-- Fixed emoji set (line 17). -/
def EMOJIS : List String := ["🔥", "💫", "🎬", "✨", "⚡", "🎵"]

/-- Fixed hashtag set (line 18). -/
def HASHTAGS : List String := ["#reels", "#foryou", "#explore", "#trending", "#viral"]

/-- Line 159: start = 0.2. -/
def subclip_start : ℚ := 1 / 5

/-- Line 160: end = max(clip.duration - 0.2, 0.5), the clamped end timestamp. -/
def subclip_end (d : ℚ) : ℚ := max (d - 1 / 5) (1 / 2)

/-- Duration of clip.subclip(start, end) at line 161: moviepy sets the duration
of the subclip to end - start. -/
def subclip_duration (d : ℚ) : ℚ := subclip_end d - subclip_start

/-- Model of random.uniform(a, b): a + (b - a) * u where u = random() lies in
the unit interval. -/
def uniform (a b u : ℚ) : ℚ := a + (b - a) * u

/-- Line 164: speed = 1 + random.uniform(0.01, 0.03). -/
def speedFactor (u : ℚ) : ℚ := 1 + uniform (1 / 100) (3 / 100) u

/-- Line 58: font_px = max(28, int(h * 0.05)). -/
def font_px (h : ℕ) : ℕ := max 28 (h * 5 / 100)

/-- Line 59: pad_x = max(12, int(font_px * 0.5)). -/
def pad_x (fp : ℕ) : ℕ := max 12 (fp / 2)

/-- Line 60: pad_y = max(6, int(font_px * 0.3)). -/
def pad_y (fp : ℕ) : ℕ := max 6 (fp * 3 / 10)

/-- Line 61: stroke_w = max(2, int(font_px * 0.08)). -/
def stroke_w (fp : ℕ) : ℕ := max 2 (fp * 8 / 100)

/-- Line 112: margin_r = max(40, int(w * 0.035)). -/
def margin_r (w : ℕ) : ℕ := max 40 (w * 35 / 1000)

/-- Line 113: margin_b = max(40, int(h * 0.035)). -/
def margin_b (h : ℕ) : ℕ := max 40 (h * 35 / 1000)

/-- Horizontal offset of the badge inside the frame.  The badge clip of width
ow is enlarged by margin(right=margin_r) and the enlarged clip is placed at
position ("right", "bottom") by CompositeVideoClip, which puts its left edge
at w - (ow + margin_r); the badge therefore starts at x = w - ow - margin_r.
No clamping is performed anywhere in the script. -/
def overlay_x (w ow : ℕ) : ℤ := (w : ℤ) - ow - margin_r w

/-- Vertical offset of the badge inside the frame, by the same computation
with margin(bottom=margin_b) and the "bottom" anchor. -/
def overlay_y (h oh : ℕ) : ℤ := (h : ℤ) - oh - margin_b h

/-- Result of tmp_draw.textbbox at lines 69/71. -/
structure BBox where
  x0 : ℤ
  y0 : ℤ
  x1 : ℤ
  y1 : ℤ

/-- Outcomes of the fallible external calls made inside make_watermark_badge,
in the order the script performs them: measuring the text (lines 66-72),
drawing the badge (lines 78-105), saving the temporary PNG (lines 108-110)
and constructing the ImageClip (lines 115-121).  A value Except.error e
models the call raising exception e. -/
structure BadgeEnv where
  textbbox : Except String BBox
  drawOk : Except String Unit
  savePng : Except String String
  loadClip : Except String Unit

/-- The positioned badge overlay returned by make_watermark_badge. -/
structure Badge where
  badge_w : ℤ
  badge_h : ℤ
  duration : ℚ
  opacity : ℚ
  marginRight : ℕ
  marginBottom : ℕ

/-- Lines 51-125: make_watermark_badge.  The whole body is wrapped in
try/except Exception, so every internal failure is mapped to Option.none
(the script prints a warning and returns None); the function is total and
never propagates an error to its caller. -/
def make_watermark_badge (text : String) (duration : ℚ) (w h : ℕ) (env : BadgeEnv) :
    Option Badge :=
  match (do
    let fp := font_px h
    let bbox ← env.textbbox
    let text_w := bbox.x1 - bbox.x0
    let text_h := bbox.y1 - bbox.y0
    let _ ← env.drawOk
    let _ ← env.savePng
    let _ ← env.loadClip
    pure (Badge.mk (text_w + 2 * pad_x fp) (text_h + 2 * pad_y fp) duration (92 / 100)
      (margin_r w) (margin_b h)) : Except String Badge) with
  | Except.ok b => some b
  | Except.error _ => none

/-- The python-level clip objects created while processing one file: the
source clip (line 150), the trimmed subclip (line 161), the sped-up subclip
that rebinds the variable subclip (line 165) and the CompositeVideoClip
(line 169, only created when a watermark is available). -/
inductive Handle
  | clip
  | trimmed
  | sped
  | composite
deriving DecidableEq, Fintype

/-- Where, if anywhere, the try block of lines 155-200 raises: at
clip.subclip (line 161), at subclip.fx (line 165), at CompositeVideoClip
(line 169), at write_videofile (line 178) or during caption IO
(lines 188-198). -/
inductive FailPoint
  | atSubclip
  | atSpeed
  | atComposite
  | atEncode
  | atCaption
deriving DecidableEq

/-- One file of the batch: whether VideoFileClip succeeded (line 150), the
random() sample used for the speed draw (line 164), whether
make_watermark_badge returned a badge (line 168) and where, if anywhere,
the try block raised. -/
structure FileRun where
  openOk : Bool
  u : ℚ
  wmAvailable : Bool
  failAt : Option FailPoint

/-- Which handle the local variable subclip holds when the finally block
runs (fresh bindings, i.e. the first loop iteration).  It is unbound if
line 161 raised, holds the trimmed subclip if line 165 raised, and the
sped-up subclip otherwise. -/
def subclipBinding : Option FailPoint → Option Handle
  | some FailPoint.atSubclip => none
  | some FailPoint.atSpeed => some Handle.trimmed
  | _ => some Handle.sped

/-- Which handle the local variable final_clip holds when the finally block
runs.  It is unbound before line 169 completes; afterwards it holds the
composite when a watermark was available and otherwise aliases the sped-up
subclip (line 169: final_clip = CompositeVideoClip(...) if watermark else
subclip). -/
def finalBinding (wm : Bool) : Option FailPoint → Option Handle
  | some FailPoint.atSubclip => none
  | some FailPoint.atSpeed => none
  | some FailPoint.atComposite => none
  | _ => if wm then some Handle.composite else some Handle.sped

/-- The handles actually acquired while processing the file, given how far
the try block got and whether a watermark was produced. -/
def acquired (wm : Bool) : Option FailPoint → List Handle
  | some FailPoint.atSubclip => [Handle.clip]
  | some FailPoint.atSpeed => [Handle.clip, Handle.trimmed]
  | some FailPoint.atComposite => [Handle.clip, Handle.trimmed, Handle.sped]
  | _ =>
    if wm then [Handle.clip, Handle.trimmed, Handle.sped, Handle.composite]
    else [Handle.clip, Handle.trimmed, Handle.sped]

/-- Lines 205-220: the finally block.  It closes final_clip when that
variable is bound and is not the source clip, then subclip when bound and
not the source clip, then the source clip, each close wrapped in its own
try/except.  The returned list is the sequence of close() calls issued. -/
def finallyCloses (subV finalV : Option Handle) : List Handle :=
  (match finalV with
   | some f => if f = Handle.clip then [] else [f]
   | none => []) ++
  (match subV with
   | some s => if s = Handle.clip then [] else [s]
   | none => []) ++
  [Handle.clip]

/-- Observable outcome of processing one file: whether it fully succeeded,
the speed factor applied (none if the file failed before line 164), whether
the output caption was written (lines 197-198, reached only on full
success) and the sequence of close() calls issued by the finally block. -/
structure FileResult where
  success : Bool
  speed : Option ℚ
  captionWritten : Bool
  closes : List Handle

/-- Lines 148-220: processing of one file.  If VideoFileClip raises the
file is skipped with continue (lines 149-153) and no cleanup runs;
otherwise the try block runs to its failure point (if any), the except
clause at lines 202-203 swallows the exception, and the finally block
issues its close() calls. -/
def processFile (r : FileRun) : FileResult :=
  if r.openOk then
    { success := r.failAt.isNone
      speed :=
        if r.failAt = some FailPoint.atSubclip then none else some (speedFactor r.u)
      captionWritten := r.failAt.isNone
      closes := finallyCloses (subclipBinding r.failAt) (finalBinding r.wmAvailable r.failAt) }
  else
    { success := false, speed := none, captionWritten := false, closes := [] }

/-- The handles acquired for a file run (none when the open itself failed). -/
def acquiredHandles (r : FileRun) : List Handle :=
  if r.openOk then acquired r.wmAvailable r.failAt else []

/-- Lines 141-220: the batch loop.  Every file is processed in order; a
failure of one file never aborts the loop (open failures hit continue,
stage failures are caught by the per-file except clause). -/
def runBatch : List String → (String → FileRun) → List (String × FileResult)
  | [], _ => []
  | f :: fs, env => (f, processFile (env f)) :: runBatch fs env

/-- The whitespace characters stripped by python str.strip() that can occur
in the plain text captions this script handles (ASCII whitespace). -/
def isPySpace (c : Char) : Bool :=
  c == ' ' || c == '\t' || c == '\n' || c == '\r' || c == '\x0b' || c == '\x0c'

/-- Left part of str.strip(). -/
def stripLeft (l : List Char) : List Char := l.dropWhile isPySpace

/-- Right part of str.strip(). -/
def stripRight (l : List Char) : List Char := (l.reverse.dropWhile isPySpace).reverse

/-- python str.strip(). -/
def pyStrip (s : String) : String := String.mk (stripRight (stripLeft s.data))

/-- A list of characters that does not start with whitespace. -/
def noLeadSpace : List Char → Bool
  | [] => true
  | c :: _ => !isPySpace c

/-- Lines 188-198: the caption mutation.  The input is the optional content
of the sidecar file (none when the file does not exist, in which case the
caption starts as the empty string); e and htag are the random.choice
samples from EMOJIS and HASHTAGS.  The script computes
caption = (caption + " " + e).strip() and then appends a newline and the
hashtag, and always writes the result. -/
def buildCaption (input : Option String) (e htag : String) : String :=
  let caption :=
    match input with
    | some c => pyStrip c
    | none => ""
  let caption2 := pyStrip (caption ++ " " ++ e)
  caption2 ++ "\n" ++ htag

/-- A font handle as returned by the resolver: either a truetype font loaded
from a path at a pixel size, or the Pillow built-in default bitmap font. -/
inductive PILFont
  | truetype (path : String) (size_px : ℕ)
  | default_bitmap
deriving DecidableEq

/-- Filesystem and font-loading behaviour visible to resolve_font:
os.path.exists for each candidate path, and whether ImageFont.truetype
succeeds on it (false models the call raising, which the script swallows
with except Exception: pass). -/
structure FontEnv where
  pathExists : String → Bool
  loadOk : String → ℕ → Bool

/-- Lines 27-31: the ordered candidate font paths. -/
def SYSTEM_FONTS : List String :=
  ["/usr/share/fonts/truetype/roboto/Roboto-Regular.ttf",
   "/usr/share/fonts/truetype/dejavu/DejaVuSans.ttf",
   "Roboto-Regular.ttf"]

/-- The loop of lines 38-43 over an arbitrary candidate list: skip paths
that do not exist, return the first candidate that exists and loads, and
swallow any load error, moving on to the next candidate. -/
def resolveFromList (env : FontEnv) (size_px : ℕ) : List String → PILFont
  | [] => PILFont.default_bitmap
  | p :: ps =>
    if env.pathExists p then
      if env.loadOk p size_px then PILFont.truetype p size_px
      else resolveFromList env size_px ps
    else resolveFromList env size_px ps

/-- Lines 33-45: resolve_font, falling back to ImageFont.load_default()
(line 45) when no candidate both exists and loads. -/
def resolve_font (env : FontEnv) (size_px : ℕ) : PILFont :=
  resolveFromList env size_px SYSTEM_FONTS

/-- python str.lower() restricted to the ASCII range, which is what matters
for the ".mp4" suffix comparison at line 136. -/
def pyLower (s : String) : String := String.mk (s.data.map Char.toLower)

/-- python str.endswith. -/
def pyEndsWith (s suffix : String) : Bool := suffix.data.isSuffixOf s.data

/-- Line 136: a directory entry is selected when its lowercased name ends
with ".mp4". -/
def selected (f : String) : Bool := pyEndsWith (pyLower f) ".mp4"

/-- CPython os.path.splitext on a name without path separators (os.listdir
entries): split at the last dot, unless every character before that dot is
itself a dot, in which case the extension is empty. -/
def splitextChars (l : List Char) : List Char × List Char :=
  match l.reverse.dropWhile (fun c => c != '.') with
  | [] => (l, [])
  | d :: rootRev =>
    if rootRev.any (fun c => c != '.') then
      (rootRev.reverse, d :: (l.reverse.takeWhile (fun c => c != '.')).reverse)
    else (l, [])

/-- os.path.splitext on strings. -/
def splitext (s : String) : String × String :=
  (String.mk (splitextChars s.data).1, String.mk (splitextChars s.data).2)

/-- Lines 142-143: base = os.path.splitext(file)[0];
video_path = os.path.join(INPUT_DIR, base + ".mp4").  The path actually
opened is rebuilt from the root plus the literal lowercase extension. -/
def video_path (f : String) : String := INPUT_DIR ++ "/" ++ (splitext f).1 ++ ".mp4"

/-- The path of the listed directory entry itself. -/
def listed_path (f : String) : String := INPUT_DIR ++ "/" ++ f

/-! Helper lemmas. -/

lemma data_append (a b : String) : (a ++ b).data = a.data ++ b.data := by
  rcases a with ⟨la⟩
  rcases b with ⟨lb⟩
  rfl

lemma string_ext {a b : String} (h : a.data = b.data) : a = b := by
  rcases a with ⟨la⟩
  rcases b with ⟨lb⟩
  cases h
  rfl

lemma string_append_empty (s : String) : s ++ "" = s := by
  apply string_ext
  rw [data_append]
  show s.data ++ [] = s.data
  rw [List.append_nil]

lemma list_cancel_left {α : Type} (a : List α) {b c : List α}
    (h : a ++ b = a ++ c) : b = c := by
  induction a with
  | nil => simpa using h
  | cons x t ih =>
    simp only [List.cons_append, List.cons.injEq, true_and] at h
    exact ih h

lemma dropWhile_sublist_self (p : Char → Bool) (l : List Char) :
    (l.dropWhile p).Sublist l := by
  induction l with
  | nil => simp
  | cons c t ih =>
    rw [List.dropWhile_cons]
    split
    · exact ih.trans (List.sublist_cons_self c t)
    · exact List.Sublist.refl _

lemma length_dropWhile_le' (p : Char → Bool) (l : List Char) :
    (l.dropWhile p).length ≤ l.length :=
  (dropWhile_sublist_self p l).length_le

lemma stripLeft_eq_self_iff (l : List Char) : stripLeft l = l ↔ noLeadSpace l = true := by
  cases l with
  | nil => simp [stripLeft, noLeadSpace]
  | cons c t =>
    cases hc : isPySpace c with
    | false => simp [stripLeft, List.dropWhile_cons, hc, noLeadSpace]
    | true =>
      simp only [stripLeft, List.dropWhile_cons, hc, if_true, noLeadSpace, Bool.not_true]
      constructor
      · intro h
        have hlen := length_dropWhile_le' isPySpace t
        rw [h] at hlen
        simp at hlen
      · intro h
        simp at h

lemma stripRight_eq_self_iff (l : List Char) :
    stripRight l = l ↔ noLeadSpace l.reverse = true := by
  rw [← stripLeft_eq_self_iff]
  unfold stripRight stripLeft
  constructor
  · intro h
    have h2 := congrArg List.reverse h
    simpa using h2
  · intro h
    rw [h]
    exact List.reverse_reverse l

lemma pyStrip_eq_self (s : String) (h1 : noLeadSpace s.data = true)
    (h2 : noLeadSpace s.data.reverse = true) : pyStrip s = s := by
  apply string_ext
  show stripRight (stripLeft s.data) = s.data
  rw [(stripLeft_eq_self_iff s.data).mpr h1, (stripRight_eq_self_iff s.data).mpr h2]

lemma pyStrip_eq_self_parts (s : String) (h : pyStrip s = s) :
    stripLeft s.data = s.data ∧ stripRight s.data = s.data := by
  have hd : stripRight (stripLeft s.data) = s.data := congrArg String.data h
  have hlen1 : (stripLeft s.data).length ≤ s.data.length :=
    length_dropWhile_le' isPySpace s.data
  have hlen2 : (stripRight (stripLeft s.data)).length ≤ (stripLeft s.data).length := by
    unfold stripRight
    rw [List.length_reverse]
    calc ((stripLeft s.data).reverse.dropWhile isPySpace).length
        ≤ (stripLeft s.data).reverse.length := length_dropWhile_le' isPySpace _
      _ = (stripLeft s.data).length := List.length_reverse _
  have heq : (stripLeft s.data).length = s.data.length := by
    have h3 := congrArg List.length hd
    omega
  have hL : stripLeft s.data = s.data :=
    (dropWhile_sublist_self isPySpace s.data).eq_of_length heq
  refine ⟨hL, ?_⟩
  rw [hL] at hd
  exact hd

lemma pyStrip_append (X e : String) (hx : X ≠ "") (hX : pyStrip X = X)
    (he2 : noLeadSpace e.data.reverse = true) (hne : e ≠ "") :
    pyStrip (X ++ " " ++ e) = X ++ " " ++ e := by
  obtain ⟨hL, hR⟩ := pyStrip_eq_self_parts X hX
  have hdata : (X ++ " " ++ e).data = X.data ++ ' ' :: e.data := by
    rw [data_append, data_append]
    simp
  have hXne : X.data ≠ [] := fun hnil => hx (string_ext (hnil.trans rfl))
  have hXhead := (stripLeft_eq_self_iff X.data).mp hL
  apply pyStrip_eq_self
  · rw [hdata]
    cases hXd : X.data with
    | nil => exact absurd hXd hXne
    | cons c t =>
      rw [hXd] at hXhead
      simpa [noLeadSpace] using hXhead
  · rw [hdata, List.reverse_append, List.reverse_cons]
    have hene : e.data.reverse ≠ [] := by
      intro hnil
      apply hne
      apply string_ext
      have h4 := congrArg List.reverse hnil
      simpa using h4
    cases hed : e.data.reverse with
    | nil => exact absurd hed hene
    | cons c t =>
      rw [hed] at he2
      simpa [noLeadSpace] using he2

lemma processFile_closes_mk (op : Bool) (u : ℚ) (wm : Bool) (fa : Option FailPoint) :
    (processFile (FileRun.mk op u wm fa)).closes =
      if op then finallyCloses (subclipBinding fa) (finalBinding wm fa) else [] := by
  cases op <;> rfl

lemma acquiredHandles_mk (op : Bool) (u : ℚ) (wm : Bool) (fa : Option FailPoint) :
    acquiredHandles (FileRun.mk op u wm fa) = if op then acquired wm fa else [] := by
  cases op <;> rfl

lemma processFile_success (r : FileRun) :
    (processFile r).success = (r.openOk && r.failAt.isNone) := by
  rcases r with ⟨op, u, wm, fa⟩
  cases op <;> rfl

lemma processFile_captionWritten (r : FileRun) :
    (processFile r).captionWritten = (r.openOk && r.failAt.isNone) := by
  rcases r with ⟨op, u, wm, fa⟩
  cases op <;> rfl

lemma processFile_speed (r : FileRun) :
    (processFile r).speed =
      if r.openOk then
        (if r.failAt = some FailPoint.atSubclip then none else some (speedFactor r.u))
      else none := by
  rcases r with ⟨op, u, wm, fa⟩
  cases op <;> rfl

lemma runBatch_map_fst (files : List String) (env : String → FileRun) :
    (runBatch files env).map Prod.fst = files := by
  induction files with
  | nil => rfl
  | cons f fs ih => simp [runBatch, ih]

lemma runBatch_append (files1 files2 : List String) (env : String → FileRun) :
    runBatch (files1 ++ files2) env = runBatch files1 env ++ runBatch files2 env := by
  induction files1 with
  | nil => rfl
  | cons f fs ih => simp [runBatch, ih]

lemma resolveFromList_default (env : FontEnv) (size_px : ℕ) (paths : List String)
    (hfail : ∀ p ∈ paths, env.pathExists p = false ∨ env.loadOk p size_px = false) :
    resolveFromList env size_px paths = PILFont.default_bitmap := by
  induction paths with
  | nil => rfl
  | cons p ps ih =>
    have hps : ∀ q ∈ ps, env.pathExists q = false ∨ env.loadOk q size_px = false :=
      fun q hq => hfail q (List.mem_cons_of_mem p hq)
    have hp := hfail p (List.mem_cons_self p ps)
    rcases hp with hp | hp
    · simp [resolveFromList, hp, ih hps]
    · cases hex : env.pathExists p <;> simp [resolveFromList, hex, hp, ih hps]

lemma splitextChars_append (l : List Char) :
    (splitextChars l).1 ++ (splitextChars l).2 = l := by
  unfold splitextChars
  split
  · simp
  · rename_i d rootRev hsp
    split
    · have hsplit := List.takeWhile_append_dropWhile (p := fun c => c != '.') (l := l.reverse)
      rw [hsp] at hsplit
      have hrev := congrArg List.reverse hsplit
      simp only [List.reverse_append, List.reverse_cons, List.reverse_reverse,
        List.append_assoc, List.singleton_append] at hrev
      simpa using hrev
    · simp

lemma splitext_append (s : String) : (splitext s).1 ++ (splitext s).2 = s := by
  apply string_ext
  rw [data_append]
  show (splitextChars s.data).1 ++ (splitextChars s.data).2 = s.data
  exact splitextChars_append s.data

/-! Claim theorems. -/

/-- C1 counterexample: on a fully successful run where the watermark was
unavailable, final_clip aliases the sped-up subclip (line 169), the guard at
line 208 only checks final_clip is not clip, and the handle therefore
receives two close() calls, so an acquired handle is not closed exactly
once and an already-released handle is released again through an alias. -/
theorem C1_counterexample :
    Handle.sped ∈ acquiredHandles (FileRun.mk true 0 false none) ∧
      (processFile (FileRun.mk true 0 false none)).closes.count Handle.sped = 2 := by
  constructor <;> decide

/-- C1 (amended): on every exit path the source clip is closed exactly once
and no never-acquired handle is ever closed; when a watermark is available
every acquired handle except the orphaned trimmed subclip is closed exactly
once; but the trimmed subclip created at line 161 is never closed once
line 165 has rebound the variable, and when the watermark is unavailable
the final clip aliases the sped-up subclip and that handle is closed twice
(the is-not-clip guards only protect against aliasing the source clip). -/
theorem C1_close_discipline (r : FileRun) :
    ((processFile r).closes.count Handle.clip = if r.openOk then 1 else 0) ∧
      (∀ hd : Handle, hd ∉ acquiredHandles r → (processFile r).closes.count hd = 0) ∧
      (r.openOk = true → finalBinding r.wmAvailable r.failAt = some Handle.sped →
        (processFile r).closes.count Handle.sped = 2) ∧
      (r.openOk = true → subclipBinding r.failAt = some Handle.sped →
        (processFile r).closes.count Handle.trimmed = 0) ∧
      (r.openOk = true → r.wmAvailable = true → ∀ hd ∈ acquiredHandles r,
        hd ≠ Handle.trimmed → (processFile r).closes.count hd = 1) := by
  obtain ⟨op, u, wm, fa⟩ := r
  dsimp only
  simp only [processFile_closes_mk, acquiredHandles_mk]
  cases op <;> cases wm <;> rcases fa with _ | fp <;> try cases fp
  all_goals decide

/-- C1 witness: the amended theorem applied to a successful run with an
available watermark shows the composite handle is closed exactly once. -/
theorem C1_witness :
    (processFile (FileRun.mk true 0 true none)).closes.count Handle.composite = 1 :=
  (C1_close_discipline (FileRun.mk true 0 true none)).2.2.2.2 rfl rfl
    Handle.composite (by decide) (by decide)

/-- C2 counterexample: for source duration d = 0.6, which is below the
claimed threshold floor + 2*trim = 0.9, the claim predicts subclip duration
exactly floor = 0.5, but line 160 clamps the end timestamp (not the
duration) and the code yields max(0.6 - 0.2, 0.5) - 0.2 = 0.3. -/
theorem C2_counterexample :
    (3 / 5 : ℚ) < 1 / 2 + 2 * (1 / 5) ∧ subclip_duration (3 / 5) = 3 / 10 ∧
      subclip_duration (3 / 5) ≠ 1 / 2 := by
  refine ⟨by norm_num, ?_, ?_⟩ <;>
    rw [subclip_duration, subclip_end, subclip_start,
      max_eq_right (by norm_num : (3 : ℚ) / 5 - 1 / 5 ≤ 1 / 2)] <;>
    norm_num

/-- C2 (amended): the floor 0.5 is applied to the end timestamp, not to the
resulting duration: for every source duration d ≥ 0.7 the subclip duration
is d - 0.4, and for 0.2 ≤ d < 0.7 it is 0.3 (the clamped end 0.5 minus the
start 0.2), never the claimed floor 0.5.  For d < 0.2 moviepy subclip
raises and the file is skipped, so such durations are excluded. -/
theorem C2_trim_duration (d : ℚ) (hd : 1 / 5 ≤ d) :
    (7 / 10 ≤ d → subclip_duration d = d - 2 / 5) ∧
      (d < 7 / 10 → subclip_duration d = 3 / 10) := by
  constructor <;> intro h
  · rw [subclip_duration, subclip_end, subclip_start, max_eq_left (by linarith)]
    ring
  · rw [subclip_duration, subclip_end, subclip_start, max_eq_right (by linarith)]
    norm_num

/-- C2 witness: the amended theorem applied at d = 1. -/
theorem C2_witness : subclip_duration 1 = 1 - 2 / 5 :=
  (C2_trim_duration 1 (by norm_num)).1 (by norm_num)

/-- C3: every file of the batch is processed, in order, regardless of how
any file fails: open failures hit continue and stage failures are caught by
the per-file except clause, so a batch split anywhere around a file f still
processes the whole prefix, f itself and the whole suffix, and the result
of every file depends only on its own run. -/
theorem C3_batch_isolation (files1 files2 : List String) (f : String)
    (env : String → FileRun) :
    ((runBatch (files1 ++ f :: files2) env).map Prod.fst = files1 ++ f :: files2) ∧
      runBatch (files1 ++ f :: files2) env =
        runBatch files1 env ++ (f, processFile (env f)) :: runBatch files2 env := by
  refine ⟨runBatch_map_fst _ _, ?_⟩
  rw [runBatch_append]
  rfl

/-- C4 counterexample: for a degenerate 100x100 frame and a 100-wide
overlay, the computed x offset is 100 - 100 - max(40, 3) = -40 < 0: no
clamping is performed, so the claimed bound 0 ≤ x fails. -/
theorem C4_counterexample : ¬ (0 ≤ overlay_x 100 100) := by decide

/-- C4 (amended): the right and bottom bounds x + ow ≤ w and y + oh ≤ h
always hold (the margins are nonnegative), but 0 ≤ x and 0 ≤ y hold only
when the overlay plus its margin fits inside the frame; the script performs
no clamping, so for degenerate small frames the offsets go negative. -/
theorem C4_overlay_bounds (w h ow oh : ℕ) :
    (overlay_x w ow + (ow : ℤ) ≤ (w : ℤ)) ∧
      (overlay_y h oh + (oh : ℤ) ≤ (h : ℤ)) ∧
      (ow + margin_r w ≤ w → 0 ≤ overlay_x w ow) ∧
      (oh + margin_b h ≤ h → 0 ≤ overlay_y h oh) := by
  refine ⟨?_, ?_, fun hle => ?_, fun hle => ?_⟩ <;>
    simp only [overlay_x, overlay_y] <;> omega

/-- C4 witness: for a 1080x1920 frame and a 200x80 overlay the amended
theorem gives a nonnegative x offset. -/
theorem C4_witness : 0 ≤ overlay_x 1080 200 :=
  (C4_overlay_bounds 1080 1920 200 80).2.2.1 (by decide)

/-- C5: the watermark renderer degrades instead of raising: every internal
failure (measuring, drawing, saving, clip construction) yields Option.none;
and when no watermark is produced the pipeline uses the untouched sped-up
subclip as the final clip (line 169) and the file still succeeds. -/
theorem C5_watermark_degrades :
    (∀ (text : String) (d : ℚ) (w h : ℕ) (env : BadgeEnv) (err : String),
        env.textbbox = Except.error err → make_watermark_badge text d w h env = none) ∧
      (∀ (text : String) (d : ℚ) (w h : ℕ) (env : BadgeEnv) (err : String),
        env.drawOk = Except.error err → make_watermark_badge text d w h env = none) ∧
      (∀ (text : String) (d : ℚ) (w h : ℕ) (env : BadgeEnv) (err : String),
        env.savePng = Except.error err → make_watermark_badge text d w h env = none) ∧
      (∀ (text : String) (d : ℚ) (w h : ℕ) (env : BadgeEnv) (err : String),
        env.loadClip = Except.error err → make_watermark_badge text d w h env = none) ∧
      finalBinding false none = some Handle.sped ∧
      (∀ r : FileRun, r.openOk = true → r.failAt = none →
        (processFile r).success = true) := by
  refine ⟨?_, ?_, ?_, ?_, rfl, ?_⟩
  · intro text d w h env err he
    rcases env with ⟨tb, dr, sv, lc⟩
    dsimp only at he
    subst he
    rfl
  · intro text d w h env err he
    rcases env with ⟨tb, dr, sv, lc⟩
    dsimp only at he
    subst he
    cases tb <;> rfl
  · intro text d w h env err he
    rcases env with ⟨tb, dr, sv, lc⟩
    dsimp only at he
    subst he
    cases tb <;> cases dr <;> rfl
  · intro text d w h env err he
    rcases env with ⟨tb, dr, sv, lc⟩
    dsimp only at he
    subst he
    cases tb <;> cases dr <;> cases sv <;> rfl
  · intro r h1 h2
    rw [processFile_success, h1, h2]
    rfl

/-- C5 witness: a failing text measurement yields no watermark. -/
theorem C5_witness :
    make_watermark_badge "@my_page" 1 1080 1920
      (BadgeEnv.mk (Except.error "font") (Except.ok ()) (Except.ok "p") (Except.ok ())) =
      none :=
  C5_watermark_degrades.1 "@my_page" 1 1080 1920
    (BadgeEnv.mk (Except.error "font") (Except.ok ()) (Except.ok "p") (Except.ok ())) "font" rfl

/-- C6: a missing caption file is treated as the empty string and the
output caption is still written on the success path; with empty input the
output is the chosen emoji, a newline and the chosen hashtag; with
non-empty whitespace-trimmed input X the output is X, a space, the emoji, a
newline and the hashtag.  The emoji and hashtag are drawn from the fixed
sets EMOJIS and HASHTAGS. -/
theorem C6_caption (i : Fin EMOJIS.length) (j : Fin HASHTAGS.length) :
    buildCaption none (EMOJIS.get i) (HASHTAGS.get j) =
        buildCaption (some "") (EMOJIS.get i) (HASHTAGS.get j) ∧
      buildCaption none (EMOJIS.get i) (HASHTAGS.get j) =
        EMOJIS.get i ++ "\n" ++ HASHTAGS.get j ∧
      (∀ r : FileRun, r.openOk = true → r.failAt = none →
        (processFile r).captionWritten = true) ∧
      ∀ X : String, X ≠ "" → pyStrip X = X →
        buildCaption (some X) (EMOJIS.get i) (HASHTAGS.get j) =
          X ++ " " ++ EMOJIS.get i ++ "\n" ++ HASHTAGS.get j := by
  refine ⟨rfl, ?_, ?_, ?_⟩
  · revert i j
    decide
  · intro r h1 h2
    rw [processFile_captionWritten, h1, h2]
    rfl
  · intro X hX hstrip
    have he : noLeadSpace (EMOJIS.get i).data.reverse = true ∧ EMOJIS.get i ≠ "" := by
      revert i
      decide
    show pyStrip (pyStrip X ++ " " ++ EMOJIS.get i) ++ "\n" ++ HASHTAGS.get j = _
    rw [hstrip, pyStrip_append X (EMOJIS.get i) hX hstrip he.1 he.2]

/-- C6 witness: the caption theorem applied to input "hello" with the first
emoji and hashtag. -/
theorem C6_witness :
    buildCaption (some "hello") (EMOJIS.get ⟨0, by decide⟩) (HASHTAGS.get ⟨0, by decide⟩) =
      "hello" ++ " " ++ EMOJIS.get ⟨0, by decide⟩ ++ "\n" ++ HASHTAGS.get ⟨0, by decide⟩ :=
  (C6_caption ⟨0, by decide⟩ ⟨0, by decide⟩).2.2.2 "hello" (by decide) (by decide)

/-- C7 counterexample: for a 100x100 frame the font size is the hardcoded
minimum 28 pixels, not the claimed fraction of frame height (which would be
5), and both margins are the hardcoded minimum 40 pixels, not 3.5 percent
of the frame size; font size does not scale between a 100-tall and a
500-tall frame. -/
theorem C7_counterexample :
    font_px 100 = 28 ∧ font_px 100 ≠ 100 * 5 / 100 ∧ font_px 500 = font_px 100 ∧
      margin_r 100 = 40 ∧ margin_r 100 ≠ 100 * 35 / 1000 := by
  decide

/-- C7 (amended): the font size is max(28, 5 percent of frame height) and
each margin is max(40, 3.5 percent of the frame dimension): the values are
frame-relative only above the thresholds (h ≥ 560 for the font, dimension
≥ 1143 for the margins) and are the hardcoded absolute pixel floors 28 and
40 below them. -/
theorem C7_metrics (w h : ℕ) :
    (560 ≤ h → font_px h = h * 5 / 100) ∧ (h < 560 → font_px h = 28) ∧
      (1143 ≤ w → margin_r w = w * 35 / 1000) ∧ (w < 1143 → margin_r w = 40) ∧
      (1143 ≤ h → margin_b h = h * 35 / 1000) ∧ (h < 1143 → margin_b h = 40) := by
  refine ⟨fun hle => ?_, fun hle => ?_, fun hle => ?_, fun hle => ?_,
    fun hle => ?_, fun hle => ?_⟩ <;>
    simp only [font_px, margin_r, margin_b, Nat.max_def] <;> split <;> omega

/-- C7 witness: at frame height 1920 the font size is the pure fraction. -/
theorem C7_witness : font_px 1920 = 1920 * 5 / 100 :=
  (C7_metrics 1080 1920).1 (by norm_num)

/-- C8: for every unit-interval sample the speed factor lies in the closed
band [1.01, 1.03]; the factor recorded for a file is computed from the
sample drawn for that file inside the loop; and two files of one batch can
receive different factors, so the factor is sampled per clip, not once per
run. -/
theorem C8_speed_band :
    (∀ u : ℚ, 0 ≤ u → u ≤ 1 → 101 / 100 ≤ speedFactor u ∧ speedFactor u ≤ 103 / 100) ∧
      (∀ r : FileRun, r.openOk = true → r.failAt = none →
        (processFile r).speed = some (speedFactor r.u)) ∧
      (runBatch ["a", "b"]
          (fun f => if f = "a" then FileRun.mk true 0 true none
            else FileRun.mk true (1 / 2) true none)).map (fun p => p.2.speed) =
        [some (101 / 100), some (102 / 100)] := by
  refine ⟨?_, ?_, ?_⟩
  · intro u h0 h1
    constructor <;> (simp only [speedFactor, uniform]; nlinarith)
  · intro r h1 h2
    rw [processFile_speed, h1, h2]
    rfl
  · show [(processFile (FileRun.mk true 0 true none)).speed,
        (processFile (FileRun.mk true (1 / 2) true none)).speed] =
      [some (101 / 100), some (102 / 100)]
    norm_num [processFile, speedFactor, uniform]
    refine ⟨fun h => ?_, fun h => ?_⟩ <;> cases h

/-- C8 witness: the band theorem applied at the sample 1/2. -/
theorem C8_witness : 101 / 100 ≤ speedFactor (1 / 2) ∧ speedFactor (1 / 2) ≤ 103 / 100 :=
  C8_speed_band.1 (1 / 2) (by norm_num) (by norm_num)

/-- C9: the font resolver never fails: when no candidate path both exists
and loads it returns the built-in default bitmap font; a load error on an
existing candidate is swallowed and resolution continues with the remaining
candidates; and an existing candidate that loads is returned. -/
theorem C9_font_fallback :
    (∀ (env : FontEnv) (size_px : ℕ),
        (∀ p ∈ SYSTEM_FONTS, env.pathExists p = false ∨ env.loadOk p size_px = false) →
        resolve_font env size_px = PILFont.default_bitmap) ∧
      (∀ (env : FontEnv) (size_px : ℕ) (p : String) (ps : List String),
        env.pathExists p = true → env.loadOk p size_px = false →
        resolveFromList env size_px (p :: ps) = resolveFromList env size_px ps) ∧
      (∀ (env : FontEnv) (size_px : ℕ) (p : String) (ps : List String),
        env.pathExists p = true → env.loadOk p size_px = true →
        resolveFromList env size_px (p :: ps) = PILFont.truetype p size_px) := by
  refine ⟨?_, ?_, ?_⟩
  · intro env size_px h
    exact resolveFromList_default env size_px SYSTEM_FONTS h
  · intro env size_px p ps h1 h2
    simp [resolveFromList, h1, h2]
  · intro env size_px p ps h1 h2
    simp [resolveFromList, h1, h2]

/-- C9 witness: with no usable candidate at all the resolver returns the
default bitmap font. -/
theorem C9_witness :
    resolve_font (FontEnv.mk (fun _ => false) (fun _ _ => false)) 28 =
      PILFont.default_bitmap :=
  C9_font_fallback.1 (FontEnv.mk (fun _ => false) (fun _ _ => false)) 28
    (fun p _ => Or.inl rfl)

/-- C10: selection lowercases the name before testing the ".mp4" suffix, so
uppercase and mixed-case extensions are accepted (witnessed by CLIP.MP4),
and for every selected file whose real extension is not exactly ".mp4" the
path rebuilt from the splitext root plus the literal ".mp4" differs from
the listed path. -/
theorem C10_extension_rebuild :
    selected "CLIP.MP4" = true ∧
      ∀ f : String, selected f = true → (splitext f).2 ≠ ".mp4" →
        video_path f ≠ listed_path f := by
  constructor
  · decide
  · intro f hsel hext heq
    apply hext
    have hdata := congrArg String.data heq
    simp only [video_path, listed_path, data_append, List.append_assoc] at hdata
    have hc := list_cancel_left _ (list_cancel_left _ hdata)
    have hsplit := congrArg String.data (splitext_append f)
    rw [data_append] at hsplit
    have h2 := hc.trans hsplit.symm
    have h3 := list_cancel_left _ h2
    exact (string_ext h3).symm

/-- C10 witness: the theorem applied to the listed name CLIP.MP4, whose
rebuilt open path CLIP.mp4 differs from the listed name. -/
theorem C10_witness : video_path "CLIP.MP4" ≠ listed_path "CLIP.MP4" :=
  C10_extension_rebuild.2 "CLIP.MP4" (by decide) (by decide)

end AutoEditReels
